import Mathlib

/-!
bobby: the daily duty messenger and the HTTP command handler.

A shallow embedding of `main.go` (`initHandlers`) and of
`messengers/duty/duty_daily_messanger.go` (`DutyDailyMessenger`), with the
properties of the written specification proved or refuted over it.

Conventions of the embedding:

* Go strings are Lean `String`s, Go slices are `List`s.
* A Go `map[string]V` is an association list; `m[k] = v` puts the pair in
  front, `m[k]` finds the first pair with key `k`, `len(m) > 0` is
  non-emptiness of the list.
* `time.Time` is an instant (nanoseconds since the Unix epoch) together with a
  location; a location is seen through its method `lookup`, which gives the UTC
  offset in force at an instant and the span of instants over which it is in
  force, so zones with transitions are covered as well as `time.UTC` and
  `time.FixedZone`. The calendar is the proleptic Gregorian one, as in package
  `time`.
* Side effects (log lines, provider queries, messages, goroutine launches) are
  recorded as a list of events in program order.
* The collaborators that are not part of the two source files (the chat client,
  the duty provider, package `opsgenie`, package `utils`, `strconv.Quote`, the
  order in which `range` walks a map) are fields of an environment record.
-/

namespace Bobby

/-! ## Package `time` -/

/-- Days of the proleptic Gregorian calendar: the civil date `(year, month, day)` of
the day that lies `z` days after 1970-01-01. The count is first moved to
0000-03-01, then cut into 400-year, 100-year, 4-year and 1-year cycles. -/
def civilFromDays (z : Int) : Int × Int × Int :=
  let s := z + 719468
  let era := s / 146097
  let doe := s % 146097
  let cent := if doe / 36524 < 4 then doe / 36524 else 3
  let doc := doe - 36524 * cent
  let quad := doc / 1461
  let doq := doc % 1461
  let yr := if doq / 365 < 4 then doq / 365 else 3
  let doy := doq - 365 * yr
  let y := 400 * era + 100 * cent + 4 * quad + yr
  let mp := (5 * doy + 2) / 153
  let d := doy - (153 * mp + 2) / 5 + 1
  let m := if mp < 10 then mp + 3 else mp - 9
  (if m ≤ 2 then y + 1 else y, m, d)

/-- Number of days from 1970-01-01 to the civil date `y-m-d` (negative before it).
The value is linear in `d`, so a day outside the month carries over as in
`time.Date`. -/
def daysFromCivil (y m d : Int) : Int :=
  let y1 := if m ≤ 2 then y - 1 else y
  let era := y1 / 400
  let yoe := y1 % 400
  let mp := if m > 2 then m - 3 else m + 9
  let doy := (153 * mp + 2) / 5 + d - 1
  let doe := 365 * yoe + yoe / 4 - yoe / 100 + doy
  era * 146097 + doe - 719468

/-- What `Location.lookup` returns for an instant: the offset in force, in seconds
east of UTC, and the span of instants `start <= sec < stop` (Go's `start`, `end`)
over which that offset is in force. -/
structure ZoneSpan where
  offset : Int
  start : Int
  stop : Int
deriving DecidableEq, Repr

/-- A `*time.Location`, seen through its method `lookup(sec)`. -/
structure Location where
  lookup : Int → ZoneSpan

/-- The constant `alpha` of package `time`: the start of a span without a start. -/
def alpha : Int := -9223372036854775808

/-- The constant `omega` of package `time`: the end of a span without an end. -/
def omega : Int := 9223372036854775807

/-- The location `time.FixedZone(name, offset)`: one offset at every instant. -/
def FixedZone (offset : Int) : Location := ⟨fun _ => ⟨offset, alpha, omega⟩⟩

/-- The location `time.UTC`. -/
def UTC : Location := FixedZone 0

/-- A `time.Time`: an instant and the location it is shown in. -/
structure Time where
  unixNano : Int
  loc : Location

/-- A `time.Duration`, in nanoseconds. -/
abbrev Duration := Int

/-- The constant `time.Hour`. -/
def Hour : Duration := 3600 * 1000000000

/-- Seconds since the epoch, rounded down (the `sec` part of a `time.Time`). -/
def Time.unixSec (t : Time) : Int := t.unixNano / 1000000000

/-- Wall-clock seconds of `t` in its own location (`t.abs()`, from the Unix epoch):
the offset is the one that the location has in force at `t`. -/
def Time.wallSec (t : Time) : Int := t.unixSec + (t.loc.lookup t.unixSec).offset

/-- The civil date of `t` in its own location. -/
def Time.date (t : Time) : Int × Int × Int := civilFromDays (t.wallSec / 86400)

/-- `t.Year()`. -/
def Time.Year (t : Time) : Int := t.date.1

/-- `t.Month()`, January = 1. -/
def Time.Month (t : Time) : Int := t.date.2.1

/-- `t.Day()`. -/
def Time.Day (t : Time) : Int := t.date.2.2

/-- `t.Hour()`. -/
def Time.hourOfDay (t : Time) : Int := t.wallSec % 86400 / 3600

/-- `t.Minute()`. -/
def Time.Minute (t : Time) : Int := t.wallSec % 3600 / 60

/-- `time.Date(year, month, day, hour, min, sec, nsec, loc)`: months outside 1..12
carry into the year, nanoseconds outside a second carry into the seconds, and
the remaining fields carry linearly. The wall-clock time is first taken as if it
were UTC (`unix`); the zone is looked up there, and when the instant that its
offset gives lies outside the span of that offset, the zone is looked up once
more at that instant; the offset found is subtracted. -/
def Date (year month day hour min sec nsec : Int) (loc : Location) : Time :=
  let m0 := month - 1
  let y := year + m0 / 12
  let m := m0 % 12 + 1
  let sec1 := sec + nsec / 1000000000
  let nsec1 := nsec % 1000000000
  let days := daysFromCivil y m day
  let unix := days * 86400 + hour * 3600 + min * 60 + sec1
  let span := loc.lookup unix
  let unix1 :=
    if span.offset ≠ 0 then
      let utc := unix - span.offset
      let offset :=
        if utc < span.start ∨ utc ≥ span.stop then (loc.lookup utc).offset else span.offset
      unix - offset
    else unix
  ⟨unix1 * 1000000000 + nsec1, loc⟩

/-- `t.Add(d)`. -/
def Time.Add (t : Time) (d : Duration) : Time := ⟨t.unixNano + d, t.loc⟩

/-- The decimal digits of `x`, left-padded with zeros to `width`, with a leading
`-` for a negative number (`appendInt` of package `time`). -/
def appendInt (x : Int) (width : Nat) : String :=
  let digits := Nat.toDigits 10 x.natAbs
  (if x < 0 then "-" else "") ++
    String.mk (List.replicate (width - digits.length) '0' ++ digits)

/-- The layout constant `timeFormatText = "2006.01.02 15:04"`. -/
def timeFormatText : String := "2006.01.02 15:04"

/-- `t.Format(timeFormatText)`: the layout holds the long year, the zero-padded
month and day, the 24-hour hour and the zero-padded minute, with the literal
separators `.`, `.`, a blank and `:` between them. -/
def Time.FormatText (t : Time) : String :=
  appendInt t.Year 4 ++ "." ++ appendInt t.Month 2 ++ "." ++ appendInt t.Day 2 ++ " " ++
    appendInt t.hourOfDay 2 ++ ":" ++ appendInt t.Minute 2

/-- `strings.Join(elems, sep)`. -/
def stringsJoin : List String → String → String
  | [], _ => ""
  | a :: rest, sep => rest.foldl (fun b s => b ++ sep ++ s) a

/-! ## Go maps -/

/-- A `map[string]V`: an association list with pairwise distinct keys. -/
abbrev GoMap (α : Type) := List (String × α)

/-- The statement `m[k] = v`. -/
def GoMap.set {α : Type} (m : GoMap α) (k : String) (v : α) : GoMap α :=
  (k, v) :: m.filter (fun e => e.1 != k)

/-- The expression `v, found := m[k]`. -/
def GoMap.get? {α : Type} (m : GoMap α) (k : String) : Option α :=
  List.lookup k m

/-! ## Data of packages `config` and `opsgenie` -/

/-- The fields of `config.User` that the messenger reads. -/
structure User where
  Name : String
  SlackLogin : String
deriving DecidableEq, Repr

/-- The section `DutyCommand` of the configuration. -/
structure DutyCommandConfig where
  ScheduleID : String
deriving DecidableEq, Repr

/-- The section `Slack` of the configuration. -/
structure SlackConfig where
  Channel : String
deriving DecidableEq, Repr

/-- The section `TimelogsCommand` of the configuration. -/
structure TimelogsCommandConfig where
  Team : List User
deriving DecidableEq, Repr

/-- The fields of `config.Config` that the messenger reads. -/
structure Config where
  DutyCommand : DutyCommandConfig
  Slack : SlackConfig
  TimelogsCommand : TimelogsCommandConfig
deriving DecidableEq, Repr

/-- The type `opsgenie.UserOnDuty`: one duty period of one user. -/
structure UserOnDuty where
  Name : String
  Start : Time
  End : Time

/-! ## Effects -/

/-- An argument of a `log.Printf` call. -/
inductive LogArg where
  | str (s : String)
  | duties (l : List UserOnDuty)
  | dutyMap (m : GoMap (List UserOnDuty))

/-- One observable step of the messenger. `go` is the launch of a goroutine that
runs `notifyUserOnDuty name message`; the steps of that goroutine are not part
of the launching trace. -/
inductive Event where
  | log (format : String) (args : List LogArg)
  | query (fromT toT : Time) (scheduleID : String)
  | send (channelID text : String)
  | go (name message : String)

/-- Names one `SendMessage` call of a run: the one made by the goroutine launched
`i`-th, or the one that sends the broadcast. -/
inductive SendCall where
  | goroutine (i : Nat)
  | broadcast
deriving DecidableEq, Repr

/-- The collaborators of `DutyDailyMessenger` that live outside its source file. -/
structure Env where
  /-- The location `time.Local`. -/
  Local : Location
  /-- The method `DutyProvider.GetUsersOnDutyForDate(from, to, scheduleID)`: the
  list and the error (`none` for `nil`). -/
  GetUsersOnDutyForDate : Time → Time → String → List UserOnDuty × Option String
  /-- The error that `SlackClient.SendMessage(channelID, text)` returns at the given
  call (`none` for `nil`). -/
  SendMessage : SendCall → String → String → Option String
  /-- The function `opsgenie.JoinDuties`. -/
  JoinDuties : List UserOnDuty → List UserOnDuty
  /-- The function `opsgenie.SplitCurrentAndNextUsersOnDuty`. -/
  SplitCurrentAndNextUsersOnDuty : Time → List UserOnDuty → UserOnDuty × List UserOnDuty
  /-- The function `utils.GetFirstName`. -/
  GetFirstName : String → String
  /-- The function `utils.ToSlackUserLogin`. -/
  ToSlackUserLogin : String → String
  /-- The order in which a `range` loop visits the entries of a map. -/
  rangeOrder : GoMap (List UserOnDuty) → List (String × List UserOnDuty)

/-- What Go guarantees of a `range` over a map: every entry is visited once. -/
def Env.RangeOrderValid (env : Env) : Prop :=
  ∀ m : GoMap (List UserOnDuty), (env.rangeOrder m).Perm m

/-- Modelled from the spec: `opsgenie.JoinDutiesByUserName` is not among the source
files. The spec (GroupByUser) has it partition a period list into a mapping from
user name to that user's periods: exactly the distinct user names present, each
mapped to all and only their periods, in the order of the list. -/
def JoinDutiesByUserName (periods : List UserOnDuty) : GoMap (List UserOnDuty) :=
  (periods.map (fun p => p.Name)).dedup.map
    (fun name => (name, periods.filter (fun p => p.Name == name)))

/-! ## `messengers/duty/duty_daily_messanger.go` -/

/-- The struct `DutyDailyMessenger`: its configuration and the cached roster. -/
structure DutyDailyMessenger where
  Config : Config
  usersByName : GoMap User
deriving DecidableEq, Repr

/-- The method `initUserByNameMap`: builds the roster from the configured team the
first time, and keeps a roster that is already there. -/
def DutyDailyMessenger.initUserByNameMap (this : DutyDailyMessenger) : DutyDailyMessenger :=
  if this.usersByName.length > 0 then this
  else
    { this with
      usersByName :=
        this.Config.TimelogsCommand.Team.foldl (fun m user => m.set user.Name user) [] }

/-- The function `processUsersOnDuty`: merge, then split, with its two log lines. -/
def processUsersOnDuty (env : Env) (now : Time) (usersOnDuty : List UserOnDuty) :
    (UserOnDuty × List UserOnDuty) × List Event :=
  let usersOnDutyJoined := env.JoinDuties usersOnDuty
  (env.SplitCurrentAndNextUsersOnDuty now usersOnDutyJoined,
    [Event.log "usersOnDuty: %v\n" [LogArg.duties usersOnDuty],
     Event.log "usersOnDutyJoined: %v\n" [LogArg.duties usersOnDutyJoined]])

/-- The function `renderPrivateMessage`. -/
def renderPrivateMessage (_now : Time) (username : String) (duties : List UserOnDuty) :
    String :=
  let msgs := duties.foldl
    (fun msgs duty =>
      msgs ++ ["from " ++ duty.Start.FormatText ++ " to " ++ duty.End.FormatText])
    ([] : List String)
  if msgs.length == 0 then ""
  else "Hello, " ++ username ++ "! You are on duty " ++ stringsJoin msgs " and " ++ ". Enjoy!"

/-- The body of the `range` loop of `notifyUsersOnDuty`, over the entries in the
order in which the loop visits them. -/
def DutyDailyMessenger.notifyLoop (env : Env) (this : DutyDailyMessenger) (now : Time) :
    List (String × List UserOnDuty) → List Event
  | [] => []
  | (name, duties) :: rest =>
    match this.usersByName.get? name with
    | none =>
      Event.log "can't find user by name: %q" [LogArg.str name] ::
        DutyDailyMessenger.notifyLoop env this now rest
    | some user =>
      let message := renderPrivateMessage now (env.GetFirstName user.Name) duties
      Event.log "message: %q" [LogArg.str message] ::
        (if message.length == 0 then DutyDailyMessenger.notifyLoop env this now rest
         else Event.go user.SlackLogin message ::
           DutyDailyMessenger.notifyLoop env this now rest)

/-- The method `notifyUsersOnDuty`. -/
def DutyDailyMessenger.notifyUsersOnDuty (env : Env) (this : DutyDailyMessenger)
    (now : Time) (usersOnDuty : List UserOnDuty) : List Event :=
  let usersOnDutyByName := JoinDutiesByUserName usersOnDuty
  Event.log "notifyUsersOnDuty.usersOnDutyByName: %+v\n" [LogArg.dutyMap usersOnDutyByName] ::
    this.notifyLoop env now (env.rangeOrder usersOnDutyByName)

/-- The method `notifyUserOnDuty`, run at the call `call`. -/
def DutyDailyMessenger.notifyUserOnDuty (env : Env) (call : SendCall)
    (name message : String) : List Event :=
  Event.send (env.ToSlackUserLogin name) message ::
    (match env.SendMessage call (env.ToSlackUserLogin name) message with
     | some err => [Event.log "send private message error: %s" [LogArg.str err]]
     | none => [])

/-- The method `getUserOnDutySlackLoginByName`: the login and the log line. -/
def DutyDailyMessenger.getUserOnDutySlackLoginByName (env : Env) (this : DutyDailyMessenger)
    (name : String) : String × List Event :=
  match this.usersByName.get? name with
  | some userOnDutyNowConfig => (env.ToSlackUserLogin userOnDutyNowConfig.SlackLogin, [])
  | none => (name, [Event.log "can't find user by name: %q" [LogArg.str name]])

/-- The method `render`: the buffer and the log lines of the lookups. Writing to a
`bytes.Buffer` returns no error, so `utils.LogIfErr` logs nothing. -/
def DutyDailyMessenger.render (env : Env) (this : DutyDailyMessenger) (_now : Time)
    (userOnDutyNow : UserOnDuty) (usersOnDutyNext : List UserOnDuty) : String × List Event :=
  let buf := ""
  let buf := buf ++ ":phone: On duty:\nNow:\n\t"
  let login := this.getUserOnDutySlackLoginByName env userOnDutyNow.Name
  let buf := buf ++ login.1
  let buf := buf ++ " till "
  let buf := buf ++ userOnDutyNow.End.FormatText
  let buf := buf ++ "\nNext:\n"
  usersOnDutyNext.foldl
    (fun acc entrie =>
      let buf := acc.1 ++ "\t"
      let login := this.getUserOnDutySlackLoginByName env entrie.Name
      let buf := buf ++ login.1
      let buf := buf ++ " from "
      let buf := buf ++ entrie.Start.FormatText
      let buf := buf ++ " to "
      let buf := buf ++ entrie.End.FormatText
      let buf := buf ++ "\n"
      (buf, acc.2 ++ login.2))
    (buf, login.2)

/-- The method `Run`: the messenger after the run and the trace of the run. -/
def DutyDailyMessenger.Run (env : Env) (this : DutyDailyMessenger) (now : Time) :
    DutyDailyMessenger × List Event :=
  let dayStart := Date now.Year now.Month now.Day 0 0 0 0 env.Local
  let fromT := dayStart
  let toT := dayStart.Add (75 * Hour)
  let res := env.GetUsersOnDutyForDate fromT toT this.Config.DutyCommand.ScheduleID
  let asked := Event.query fromT toT this.Config.DutyCommand.ScheduleID
  match res.2 with
  | some err => (this, [asked, Event.log "error get users on duty: %s" [LogArg.str err]])
  | none =>
    if res.1.length == 0 then (this, [asked, Event.log "no users on duty found" []])
    else
      let this1 := this.initUserByNameMap
      let split := processUsersOnDuty env now res.1
      let notified := this1.notifyUsersOnDuty env now split.1.2
      let text := this1.render env now split.1.1 split.1.2
      let sent :=
        match env.SendMessage SendCall.broadcast this1.Config.Slack.Channel text.1 with
        | some err => [Event.log "Error send slack message: %s" [LogArg.str err]]
        | none => []
      (this1,
        asked :: (split.2 ++ notified ++ text.2 ++
          [Event.log "text: %s\n" [LogArg.str text.1],
           Event.send this1.Config.Slack.Channel text.1] ++ sent))

/-! ## Reading a trace -/

/-- The `SendMessage` calls of a trace, as (destination, text), in order. -/
def sendsOf : List Event → List (String × String)
  | [] => []
  | Event.send channelID text :: rest => (channelID, text) :: sendsOf rest
  | _ :: rest => sendsOf rest

/-- The goroutine launches of a trace, as (name, message), in order. -/
def launchesOf : List Event → List (String × String)
  | [] => []
  | Event.go name message :: rest => (name, message) :: launchesOf rest
  | _ :: rest => launchesOf rest

/-- The provider queries of a trace, in order. -/
def queriesOf : List Event → List (Time × Time × String)
  | [] => []
  | Event.query fromT toT scheduleID :: rest => (fromT, toT, scheduleID) :: queriesOf rest
  | _ :: rest => queriesOf rest

/-- The traces of the goroutines launched by a trace, in launch order, the first
launch being call number `i`. -/
def goroutineTraces (env : Env) : Nat → List (String × String) → List (List Event)
  | _, [] => []
  | i, (name, message) :: rest =>
    DutyDailyMessenger.notifyUserOnDuty env (SendCall.goroutine i) name message ::
      goroutineTraces env (i + 1) rest

/-- The `SendMessage` calls made by the goroutines that a trace launches. -/
def privateSends (env : Env) (trace : List Event) : List (String × String) :=
  sendsOf (goroutineTraces env 0 (launchesOf trace)).flatten

/-- Every `SendMessage` call of a run: those of the launched goroutines, then those
of the calling goroutine. -/
def attemptedSends (env : Env) (trace : List Event) : List (String × String) :=
  privateSends env trace ++ sendsOf trace

/-- Whether an event is a log line. -/
def Event.isLog : Event → Bool
  | Event.log _ _ => true
  | _ => false

/-- The value of `usersOnDuty, err` in `Run`: what the provider returns for the
window that `Run` asks for. -/
def fetchedOf (env : Env) (this : DutyDailyMessenger) (now : Time) :
    List UserOnDuty × Option String :=
  env.GetUsersOnDutyForDate (Date now.Year now.Month now.Day 0 0 0 0 env.Local)
    ((Date now.Year now.Month now.Day 0 0 0 0 env.Local).Add (75 * Hour))
    this.Config.DutyCommand.ScheduleID

/-- What one pass of the loop of `notifyUsersOnDuty` launches for the entry `e`: a
goroutine for the roster user of that name, unless the name is not in the roster
or the message is empty. -/
def dispatchOf (env : Env) (roster : GoMap User) (now : Time)
    (e : String × List UserOnDuty) : Option (String × String) :=
  match roster.get? e.1 with
  | none => none
  | some user =>
    if (renderPrivateMessage now (env.GetFirstName user.Name) e.2).length == 0 then none
    else some (user.SlackLogin, renderPrivateMessage now (env.GetFirstName user.Name) e.2)

/-! ## `main.go` -/

/-- The result of `ProcessCommand`: the fields that the handler reads. -/
structure CommandResult where
  Text : String
  Postponed : Bool
deriving DecidableEq, Repr

/-- The collaborators of the HTTP handler: `processors.UnmarshalCommand`,
`commandProcessManager.ProcessCommand` (the result and the error message, `none`
for `nil`) and the quoting of the verb `%q` (`strconv.Quote`). -/
structure HandlerEnv (Request Command : Type) where
  UnmarshalCommand : Request → Command
  ProcessCommand : Command → CommandResult × Option String
  Quote : String → String

/-- One observable step of the HTTP handler: a log line or a write to the
`http.ResponseWriter`. -/
inductive HttpEvent (Command : Type) where
  | log (format : String) (command : Command)
  | write (text : String)
deriving DecidableEq, Repr

/-- The function literal that `initHandlers` registers for `/api/v1`. -/
def apiV1Handler {Request Command : Type} (env : HandlerEnv Request Command)
    (r : Request) : List (HttpEvent Command) :=
  let command := env.UnmarshalCommand r
  let res := env.ProcessCommand command
  HttpEvent.log "command: %+v\n" command ::
    (match res.2 with
     | some err => [HttpEvent.write ("Error: " ++ env.Quote err)]
     | none => if !res.1.Postponed then [HttpEvent.write res.1.Text] else [])

/-- The function `initHandlers`: the mux with the handler of `/api/v1` added. -/
def initHandlers {Request Command : Type} (mux : List (String × (Request → List (HttpEvent Command))))
    (env : HandlerEnv Request Command) : List (String × (Request → List (HttpEvent Command))) :=
  mux ++ [("/api/v1", apiV1Handler env)]

/-- The writes of a handler trace, in order. -/
def writesOf {Command : Type} : List (HttpEvent Command) → List String
  | [] => []
  | HttpEvent.write text :: rest => text :: writesOf rest
  | _ :: rest => writesOf rest

/-- The response body: the writes, one after the other. -/
def responseBody {Command : Type} (trace : List (HttpEvent Command)) : String :=
  String.join (writesOf trace)

/-! ## Sample inputs

Concrete collaborators and inputs at which the theorems below are instantiated. -/

/-- 2024-01-02 01:00:00 UTC, shown in UTC. -/
def sampleNow : Time := ⟨1704157200000000000, UTC⟩

/-- A duty of Alice Smith: 2024-01-02 08:00 to 16:00 UTC. -/
def dutyAlice : UserOnDuty :=
  ⟨"Alice Smith", ⟨1704182400000000000, UTC⟩, ⟨1704211200000000000, UTC⟩⟩

/-- A duty of Bob Jones: 2024-01-02 16:00 to 2024-01-03 00:00 UTC. -/
def dutyBob : UserOnDuty :=
  ⟨"Bob Jones", ⟨1704211200000000000, UTC⟩, ⟨1704240000000000000, UTC⟩⟩

/-- A duty of Carol King, who is on duty now: 2024-01-02 00:00 to 08:00 UTC. -/
def dutyCarol : UserOnDuty :=
  ⟨"Carol King", ⟨1704153600000000000, UTC⟩, ⟨1704182400000000000, UTC⟩⟩

/-- A configuration whose team holds Alice and Bob. -/
def sampleConfig : Config :=
  ⟨⟨"S1"⟩, ⟨"#duty"⟩, ⟨[⟨"Alice Smith", "alice"⟩, ⟨"Bob Jones", "bob"⟩]⟩⟩

/-- A messenger that has not run yet. -/
def sampleMessenger : DutyDailyMessenger := ⟨sampleConfig, []⟩

/-- A sample environment: the local zone is UTC, the provider returns `fetched`
without error, every send succeeds, the merge keeps the list, the split takes the
first period as the current one, and `range` visits the entries as `order` says. -/
def sampleEnv (fetched : List UserOnDuty)
    (order : GoMap (List UserOnDuty) → List (String × List UserOnDuty)) : Env where
  Local := UTC
  GetUsersOnDutyForDate := fun _ _ _ => (fetched, none)
  SendMessage := fun _ _ _ => none
  JoinDuties := fun l => l
  SplitCurrentAndNextUsersOnDuty := fun _ l => (l.headD dutyCarol, l.tail)
  GetFirstName := fun s => s
  ToSlackUserLogin := fun s => "@" ++ s
  rangeOrder := order

/-- The sample environment with a provider that fails. -/
def failingEnv : Env :=
  { sampleEnv [] (fun m => m) with
    GetUsersOnDutyForDate := fun _ _ _ => ([], some "provider unavailable") }

/-- The sample environment with the local zone five hours west of UTC. -/
def westEnv : Env := { sampleEnv [] (fun m => m) with Local := FixedZone (-18000) }

/-- The zone America/Sao_Paulo around 4 November 2018: UTC-3 from 2018-02-18 02:00
UTC until 2018-11-04 03:00 UTC, the instant at which the clocks went from 00:00
to 01:00 local time, and UTC-2 from then until 2019-02-17 02:00 UTC. -/
def saoPaulo : Location :=
  ⟨fun sec =>
    if sec < 1541300400 then ⟨-10800, 1518919200, 1541300400⟩
    else ⟨-7200, 1541300400, 1550368800⟩⟩

/-- 2018-11-04 12:00:00 local time in Sao Paulo (14:00 UTC), shown in that zone. -/
def saoPauloNoon : Time := ⟨1541340000000000000, saoPaulo⟩

/-- The sample environment with Sao Paulo as the local zone. -/
def saoPauloEnv : Env := { sampleEnv [] (fun m => m) with Local := saoPaulo }

/-- A sample HTTP environment: the request is the command name; `duty` is
answered inline, `timelogs` is postponed, any other command is unknown. -/
def sampleHandlerEnv : HandlerEnv String String where
  UnmarshalCommand := fun r => r
  ProcessCommand := fun c =>
    if c = "duty" then (⟨"on duty: alice", false⟩, none)
    else if c = "timelogs" then (⟨"", true⟩, none)
    else (⟨"stale text", false⟩, some "unknown command")
  Quote := fun s => "\"" ++ s ++ "\""

/-- The sample messenger with its roster built. -/
def readyMessenger : DutyDailyMessenger := sampleMessenger.initUserByNameMap

/-- The sample environment with a provider that returns the duties of Carol, Alice
and Bob, and a `range` that visits the entries in the order of the list. -/
def dutyEnv : Env := sampleEnv [dutyCarol, dutyAlice, dutyBob] (fun m => m)

/-! ## Definitions that follow the wording of the specification -/

/-- The offset that `time.Date` subtracts from the wall-clock time `unix` (taken as
if it were UTC) in the location `loc`: the offset in force at `unix`, or, when
the instant that this offset gives lies outside its span, the offset in force at
that instant. -/
def Location.dateOffset (loc : Location) (unix : Int) : Int :=
  if (loc.lookup unix).offset ≠ 0 then
    if unix - (loc.lookup unix).offset < (loc.lookup unix).start ∨
        unix - (loc.lookup unix).offset ≥ (loc.lookup unix).stop then
      (loc.lookup (unix - (loc.lookup unix).offset)).offset
    else (loc.lookup unix).offset
  else 0

/-- The value of `usersOnDutyNext` in `Run`: the upcoming periods that the split
returns for the merged fetched list. -/
def nextOf (env : Env) (this : DutyDailyMessenger) (now : Time) : List UserOnDuty :=
  (env.SplitCurrentAndNextUsersOnDuty now (env.JoinDuties (fetchedOf env this now).1)).2

/-- The user names of the map of `notifyUsersOnDuty`, in the order in which `range`
visits them. -/
def visitedNames (env : Env) (usersOnDuty : List UserOnDuty) : List String :=
  (env.rangeOrder (JoinDutiesByUserName usersOnDuty)).map Prod.fst

/-- The private reminder that is due to the user `name`, in the words of the
specification: none when the name is not a key of the roster; otherwise the
message over the periods of that name in `next`, sent to `ToSlackUserLogin` of the
roster entry's `SlackLogin`. -/
def reminderFor (env : Env) (roster : GoMap User) (now : Time) (next : List UserOnDuty)
    (name : String) : Option (String × String) :=
  (roster.get? name).map (fun user =>
    (env.ToSlackUserLogin user.SlackLogin,
      renderPrivateMessage now (env.GetFirstName user.Name)
        (next.filter (fun p => p.Name == name))))

/-- The login that the broadcast shows for a name, in the words of the
specification: `ToSlackUserLogin` of the roster user's `SlackLogin` when the
name is in the roster, and the raw name otherwise. -/
def loginOrName (env : Env) (roster : GoMap User) (name : String) : String :=
  match roster.get? name with
  | some user => env.ToSlackUserLogin user.SlackLogin
  | none => name

/-- One piece of a private message, in the words of the specification. -/
def dutySegment (duty : UserOnDuty) : String :=
  "from " ++ duty.Start.FormatText ++ " to " ++ duty.End.FormatText

/-- One line of the `Next:` part of the broadcast, in the words of the
specification. -/
def nextLine (env : Env) (roster : GoMap User) (e : UserOnDuty) : String :=
  "\t" ++ loginOrName env roster e.Name ++ " from " ++ e.Start.FormatText ++ " to " ++
    e.End.FormatText ++ "\n"

/-! ## Package `time`: the calendar -/

theorem daysFromCivil_marchYear (y mp d : Int) (h0 : 0 ≤ mp) (h1 : mp ≤ 11) :
    daysFromCivil (if (if mp < 10 then mp + 3 else mp - 9) ≤ 2 then y + 1 else y)
      (if mp < 10 then mp + 3 else mp - 9) d
      = y / 400 * 146097 + (365 * (y % 400) + y % 400 / 4 - y % 400 / 100
          + ((153 * mp + 2) / 5 + d - 1)) - 719468 := by
  by_cases h : mp < 10
  · have h2 : ¬ (mp + 3 ≤ 2) := by omega
    have h3 : mp + 3 > 2 := by omega
    simp only [daysFromCivil, h, if_true, h2, if_false, h3, add_sub_cancel_right]
  · have h2 : mp - 9 ≤ 2 := by omega
    have h3 : ¬ (mp - 9 > 2) := by omega
    simp only [daysFromCivil, h, if_false, h2, if_true, h3, add_sub_cancel_right, sub_add_cancel]

theorem yearOfEra_parts (era cent quad yr : Int) (hc0 : 0 ≤ cent) (hc : cent ≤ 3)
    (hq0 : 0 ≤ quad) (hq : quad ≤ 24) (hy0 : 0 ≤ yr) (hy : yr ≤ 3) :
    (400 * era + 100 * cent + 4 * quad + yr) / 400 = era ∧
    (400 * era + 100 * cent + 4 * quad + yr) % 400 = 100 * cent + 4 * quad + yr ∧
    (100 * cent + 4 * quad + yr) / 4 = 25 * cent + quad ∧
    (100 * cent + 4 * quad + yr) / 100 = cent := by
  refine ⟨by omega, by omega, by omega, by omega⟩

/-- Converting a day count to a civil date and back gives the day count. -/
theorem daysFromCivil_civilFromDays (z : Int) :
    daysFromCivil (civilFromDays z).1 (civilFromDays z).2.1 (civilFromDays z).2.2 = z := by
  simp only [civilFromDays]
  generalize hcent :
    (if (z + 719468) % 146097 / 36524 < 4 then (z + 719468) % 146097 / 36524 else 3) = cent
  have hc : 0 ≤ cent ∧ cent ≤ 3 ∧ 0 ≤ (z + 719468) % 146097 - 36524 * cent ∧
      (z + 719468) % 146097 - 36524 * cent ≤ 36524 := by
    subst hcent; split_ifs <;> omega
  generalize hdoc : (z + 719468) % 146097 - 36524 * cent = doc at hc ⊢
  generalize hyr : (if doc % 1461 / 365 < 4 then doc % 1461 / 365 else 3) = yr
  have hy : 0 ≤ yr ∧ yr ≤ 3 ∧ 0 ≤ doc % 1461 - 365 * yr ∧ doc % 1461 - 365 * yr ≤ 365 := by
    subst hyr; split_ifs <;> omega
  generalize hdoy : doc % 1461 - 365 * yr = doy at hy ⊢
  have hq : 0 ≤ doc / 1461 ∧ doc / 1461 ≤ 24 := by omega
  generalize hquad : doc / 1461 = quad at hq ⊢
  have hmp : 0 ≤ (5 * doy + 2) / 153 ∧ (5 * doy + 2) / 153 ≤ 11 := by omega
  rw [daysFromCivil_marchYear _ _ _ hmp.1 hmp.2]
  obtain ⟨e1, e2, e3, e4⟩ := yearOfEra_parts ((z + 719468) / 146097) cent quad yr
    hc.1 hc.2.1 hq.1 hq.2 hy.1 hy.2.1
  rw [e1, e2, e3, e4]
  omega

/-- The month of a civil date lies in 1..12. -/
theorem civilFromDays_month_range (z : Int) :
    1 ≤ (civilFromDays z).2.1 ∧ (civilFromDays z).2.1 ≤ 12 := by
  simp only [civilFromDays]
  split_ifs <;> omega

/-- What `time.Date` returns: the wall-clock time less the offset it selects. -/
theorem Date_eq (year month day hour min sec nsec : Int) (loc : Location) :
    Date year month day hour min sec nsec loc =
      ⟨(daysFromCivil (year + (month - 1) / 12) ((month - 1) % 12 + 1) day * 86400
          + hour * 3600 + min * 60 + (sec + nsec / 1000000000)
          - loc.dateOffset (daysFromCivil (year + (month - 1) / 12) ((month - 1) % 12 + 1) day
              * 86400 + hour * 3600 + min * 60 + (sec + nsec / 1000000000))) * 1000000000
        + nsec % 1000000000, loc⟩ := by
  simp only [Date, Location.dateOffset]
  split_ifs <;> simp

/-- The day start built by `Run` is midnight of the wall-clock day of `now`, less
the offset that `time.Date` selects for that wall-clock time in `loc`. -/
theorem Date_of_now (now : Time) (loc : Location) :
    Date now.Year now.Month now.Day 0 0 0 0 loc
      = ⟨(now.wallSec / 86400 * 86400 - loc.dateOffset (now.wallSec / 86400 * 86400))
          * 1000000000, loc⟩ := by
  have hm := civilFromDays_month_range (now.wallSec / 86400)
  have hr := daysFromCivil_civilFromDays (now.wallSec / 86400)
  have e1 : (now.Month - 1) / 12 = 0 := by
    simp only [Time.Month, Time.date]; omega
  have e2 : (now.Month - 1) % 12 + 1 = now.Month := by
    simp only [Time.Month, Time.date]; omega
  rw [Date_eq, e1, e2]
  simp only [Time.Year, Time.Month, Time.Day, Time.date] at hr ⊢
  simp only [add_zero, hr]
  simp

/-! ## Strings -/

theorem foldl_append_eq_join (l : List String) (acc : String) :
    l.foldl (fun r s => r ++ s) acc = acc ++ String.join l := by
  induction l generalizing acc with
  | nil => simp [String.join]
  | cons x xs ih =>
    simp only [List.foldl_cons, String.join]
    rw [ih, ih ("" ++ x), String.empty_append, String.append_assoc]

theorem join_cons (a : String) (l : List String) :
    String.join (a :: l) = a ++ String.join l := by
  simp only [String.join, List.foldl_cons]
  rw [foldl_append_eq_join, String.empty_append]
  rfl

theorem join_nil : String.join [] = "" := rfl

theorem stringsJoin_eq_intercalate (l : List String) (sep : String) :
    stringsJoin l sep = sep.intercalate l := by
  cases l with
  | nil => rfl
  | cons a rest =>
    simp only [stringsJoin, String.intercalate]
    induction rest generalizing a with
    | nil => rfl
    | cons x xs ih => simp only [List.foldl_cons, String.intercalate.go]; exact ih _

theorem foldl_snoc_eq_map {α β : Type} (g : α → β) (l : List α) (acc : List β) :
    l.foldl (fun msgs d => msgs ++ [g d]) acc = acc ++ l.map g := by
  induction l generalizing acc with
  | nil => simp
  | cons x xs ih => simp [ih]

/-! ## The private message and the broadcast text -/

theorem renderPrivateMessage_eq (now : Time) (username : String) (duties : List UserOnDuty) :
    renderPrivateMessage now username duties =
      if duties.isEmpty then ""
      else "Hello, " ++ username ++ "! You are on duty " ++
        " and ".intercalate (duties.map dutySegment) ++ ". Enjoy!" := by
  have hm : duties.foldl
      (fun msgs duty =>
        msgs ++ ["from " ++ duty.Start.FormatText ++ " to " ++ duty.End.FormatText])
      ([] : List String) = duties.map dutySegment := by
    rw [foldl_snoc_eq_map (fun duty : UserOnDuty =>
      "from " ++ duty.Start.FormatText ++ " to " ++ duty.End.FormatText)]
    rfl
  simp only [renderPrivateMessage, hm, stringsJoin_eq_intercalate]
  cases duties with
  | nil => simp
  | cons d ds => simp

theorem renderPrivateMessage_ne_empty (now : Time) (username : String)
    (duties : List UserOnDuty) (h : duties ≠ []) :
    (renderPrivateMessage now username duties).length ≠ 0 := by
  rw [renderPrivateMessage_eq]
  cases duties with
  | nil => exact absurd rfl h
  | cons d ds =>
    simp only [List.isEmpty_cons, Bool.false_eq_true, if_false, String.length_append]
    have h3 : "Hello, ".length = 7 := by decide
    omega

theorem render_foldl (env : Env) (this : DutyDailyMessenger) (next : List UserOnDuty)
    (buf : String) (ev : List Event) :
    (next.foldl
      (fun (acc : String × List Event) (entrie : UserOnDuty) =>
        (acc.1 ++ "\t" ++ (this.getUserOnDutySlackLoginByName env entrie.Name).1 ++ " from " ++
            entrie.Start.FormatText ++ " to " ++ entrie.End.FormatText ++ "\n",
          acc.2 ++ (this.getUserOnDutySlackLoginByName env entrie.Name).2))
      (buf, ev)).1 = buf ++ String.join (next.map (nextLine env this.usersByName)) := by
  induction next generalizing buf ev with
  | nil => simp [join_nil]
  | cons e es ih =>
    simp only [List.foldl_cons, List.map_cons, join_cons]
    rw [ih]
    have hl : (this.getUserOnDutySlackLoginByName env e.Name).1
        = loginOrName env this.usersByName e.Name := by
      simp only [DutyDailyMessenger.getUserOnDutySlackLoginByName, loginOrName]
      cases this.usersByName.get? e.Name <;> rfl
    simp only [nextLine, hl, String.append_assoc]

/-- C1: in the handler registered for `/api/v1`, when processing the command returns
no error, nothing is written if the result is postponed, and exactly the result's
text is written, once, if it is not. -/
theorem apiV1Handler_no_error {Request Command : Type} (env : HandlerEnv Request Command)
    (r : Request) (h : (env.ProcessCommand (env.UnmarshalCommand r)).2 = none) :
    writesOf (apiV1Handler env r) =
      (if (env.ProcessCommand (env.UnmarshalCommand r)).1.Postponed then []
       else [(env.ProcessCommand (env.UnmarshalCommand r)).1.Text]) ∧
    responseBody (apiV1Handler env r) =
      (if (env.ProcessCommand (env.UnmarshalCommand r)).1.Postponed then ""
       else (env.ProcessCommand (env.UnmarshalCommand r)).1.Text) ∧
    (initHandlers [] env).map (fun e => (e.1, writesOf (e.2 r))) =
      [("/api/v1", writesOf (apiV1Handler env r))] := by
  refine ⟨?_, ?_, rfl⟩
  · simp only [apiV1Handler, h]
    cases (env.ProcessCommand (env.UnmarshalCommand r)).1.Postponed <;> simp [writesOf]
  · simp only [apiV1Handler, responseBody, h]
    cases (env.ProcessCommand (env.UnmarshalCommand r)).1.Postponed <;>
      simp [writesOf, join_cons, join_nil]

theorem apiV1Handler_no_error_witness :
    (sampleHandlerEnv.ProcessCommand (sampleHandlerEnv.UnmarshalCommand "duty")).2 = none ∧
    (sampleHandlerEnv.ProcessCommand (sampleHandlerEnv.UnmarshalCommand "timelogs")).2 = none ∧
    writesOf (apiV1Handler sampleHandlerEnv "duty") = ["on duty: alice"] ∧
    writesOf (apiV1Handler sampleHandlerEnv "timelogs") = [] :=
  ⟨by decide, by decide, (apiV1Handler_no_error sampleHandlerEnv "duty" (by decide)).1,
    (apiV1Handler_no_error sampleHandlerEnv "timelogs" (by decide)).1⟩

/-- C2: in the handler registered for `/api/v1`, when processing the command returns an
error, the only write is `Error: ` followed by the quoted error message; neither
the text nor the postponed flag of the result has any influence. -/
theorem apiV1Handler_error {Request Command : Type} (env : HandlerEnv Request Command)
    (r : Request) (err : String)
    (h : (env.ProcessCommand (env.UnmarshalCommand r)).2 = some err) :
    writesOf (apiV1Handler env r) = ["Error: " ++ env.Quote err] ∧
    responseBody (apiV1Handler env r) = "Error: " ++ env.Quote err ∧
    (initHandlers [] env).map (fun e => (e.1, writesOf (e.2 r))) =
      [("/api/v1", writesOf (apiV1Handler env r))] := by
  refine ⟨?_, ?_, rfl⟩
  · simp [apiV1Handler, h, writesOf]
  · simp [apiV1Handler, responseBody, h, writesOf, join_cons, join_nil]

theorem apiV1Handler_error_witness :
    (sampleHandlerEnv.ProcessCommand (sampleHandlerEnv.UnmarshalCommand "deploy")).2
      = some "unknown command" ∧
    writesOf (apiV1Handler sampleHandlerEnv "deploy")
      = ["Error: " ++ sampleHandlerEnv.Quote "unknown command"] ∧
    responseBody (apiV1Handler sampleHandlerEnv "deploy")
      = "Error: " ++ sampleHandlerEnv.Quote "unknown command" :=
  ⟨by decide,
    (apiV1Handler_error sampleHandlerEnv "deploy" "unknown command" (by decide)).1,
    (apiV1Handler_error sampleHandlerEnv "deploy" "unknown command" (by decide)).2.1⟩

/-- C9: `renderPrivateMessage` returns the empty string exactly when `duties` is empty;
otherwise it returns the greeting with one piece `from <Start> to <End>` per duty,
in input order, joined by ` and `; the value of `now` plays no part. -/
theorem renderPrivateMessage_spec (now : Time) (username : String)
    (duties : List UserOnDuty) :
    (renderPrivateMessage now username duties = "" ↔ duties = []) ∧
    renderPrivateMessage now username duties =
      (if duties.isEmpty then ""
       else "Hello, " ++ username ++ "! You are on duty " ++
         " and ".intercalate (duties.map dutySegment) ++ ". Enjoy!") ∧
    (duties.map dutySegment).length = duties.length ∧
    ∀ now2 : Time,
      renderPrivateMessage now2 username duties = renderPrivateMessage now username duties := by
  refine ⟨?_, renderPrivateMessage_eq now username duties, List.length_map _ _, ?_⟩
  · constructor
    · intro h
      by_contra hne
      have := renderPrivateMessage_ne_empty now username duties hne
      rw [h] at this
      exact this (by decide)
    · intro h
      subst h
      rw [renderPrivateMessage_eq]
      simp
  · intro now2
    rw [renderPrivateMessage_eq, renderPrivateMessage_eq]

/-- C10: the text of `render` is the header, the login of the current user, ` till `,
the end of the current period, the line `Next:`, and then one line per entry of
`next`, in list order, each a tab, the login, ` from `, the start, ` to `, the end
and a line feed; the login is `ToSlackUserLogin` of the roster's `SlackLogin` when
the name is in the roster and the raw name otherwise; `now` plays no part. -/
theorem render_spec (env : Env) (this : DutyDailyMessenger) (now : Time)
    (current : UserOnDuty) (next : List UserOnDuty) :
    (this.render env now current next).1 =
      ":phone: On duty:\nNow:\n\t" ++ loginOrName env this.usersByName current.Name ++
        " till " ++ current.End.FormatText ++ "\nNext:\n" ++
        String.join (next.map (nextLine env this.usersByName)) ∧
    (∀ e : UserOnDuty, nextLine env this.usersByName e =
      "\t" ++ loginOrName env this.usersByName e.Name ++ " from " ++ e.Start.FormatText ++
        " to " ++ e.End.FormatText ++ "\n") ∧
    (∀ name : String, loginOrName env this.usersByName name =
      match this.usersByName.get? name with
      | some user => env.ToSlackUserLogin user.SlackLogin
      | none => name) ∧
    ∀ now2 : Time, this.render env now2 current next = this.render env now current next := by
  refine ⟨?_, fun _ => rfl, fun _ => rfl, fun _ => rfl⟩
  have hl : (this.getUserOnDutySlackLoginByName env current.Name).1
      = loginOrName env this.usersByName current.Name := by
    simp only [DutyDailyMessenger.getUserOnDutySlackLoginByName, loginOrName]
    cases this.usersByName.get? current.Name <;> rfl
  simp only [DutyDailyMessenger.render]
  rw [render_foldl, hl, String.empty_append]

/-! ## Traces -/

theorem sendsOf_append (a b : List Event) : sendsOf (a ++ b) = sendsOf a ++ sendsOf b := by
  induction a with
  | nil => rfl
  | cons e es ih => cases e <;> simp [sendsOf, ih]

theorem launchesOf_append (a b : List Event) :
    launchesOf (a ++ b) = launchesOf a ++ launchesOf b := by
  induction a with
  | nil => rfl
  | cons e es ih => cases e <;> simp [launchesOf, ih]

theorem queriesOf_append (a b : List Event) :
    queriesOf (a ++ b) = queriesOf a ++ queriesOf b := by
  induction a with
  | nil => rfl
  | cons e es ih => cases e <;> simp [queriesOf, ih]

theorem logs_silent (l : List Event) (h : ∀ e ∈ l, e.isLog = true) :
    sendsOf l = [] ∧ launchesOf l = [] ∧ queriesOf l = [] := by
  induction l with
  | nil => exact ⟨rfl, rfl, rfl⟩
  | cons e es ih =>
    have hes := ih (fun x hx => h x (List.mem_cons_of_mem _ hx))
    have he := h e (List.mem_cons_self _ _)
    cases e <;> simp_all [sendsOf, launchesOf, queriesOf, Event.isLog]

theorem login_logs (env : Env) (this : DutyDailyMessenger) (name : String) :
    ∀ e ∈ (this.getUserOnDutySlackLoginByName env name).2, e.isLog = true := by
  intro e he
  simp only [DutyDailyMessenger.getUserOnDutySlackLoginByName] at he
  cases hg : this.usersByName.get? name <;> simp_all [Event.isLog]

theorem render_foldl_logs (env : Env) (this : DutyDailyMessenger) (next : List UserOnDuty)
    (buf : String) (ev : List Event) (hev : ∀ e ∈ ev, e.isLog = true) :
    ∀ e ∈ (next.foldl
      (fun (acc : String × List Event) (entrie : UserOnDuty) =>
        (acc.1 ++ "\t" ++ (this.getUserOnDutySlackLoginByName env entrie.Name).1 ++ " from " ++
            entrie.Start.FormatText ++ " to " ++ entrie.End.FormatText ++ "\n",
          acc.2 ++ (this.getUserOnDutySlackLoginByName env entrie.Name).2))
      (buf, ev)).2, e.isLog = true := by
  induction next generalizing buf ev with
  | nil => simpa using hev
  | cons x xs ih =>
    simp only [List.foldl_cons]
    apply ih
    intro e he
    rcases List.mem_append.mp he with h | h
    · exact hev e h
    · exact login_logs env this x.Name e h

theorem render_logs (env : Env) (this : DutyDailyMessenger) (now : Time)
    (current : UserOnDuty) (next : List UserOnDuty) :
    ∀ e ∈ (this.render env now current next).2, e.isLog = true := by
  simp only [DutyDailyMessenger.render]
  exact render_foldl_logs env this next _ _ (login_logs env this current.Name)

theorem notifyLoop_launches (env : Env) (this : DutyDailyMessenger) (now : Time)
    (order : List (String × List UserOnDuty)) :
    launchesOf (this.notifyLoop env now order)
      = order.filterMap (dispatchOf env this.usersByName now) ∧
    sendsOf (this.notifyLoop env now order) = [] ∧
    queriesOf (this.notifyLoop env now order) = [] := by
  induction order with
  | nil => exact ⟨rfl, rfl, rfl⟩
  | cons e es ih =>
    obtain ⟨name, duties⟩ := e
    obtain ⟨ih1, ih2, ih3⟩ := ih
    cases hg : this.usersByName.get? name with
    | none =>
      simp [DutyDailyMessenger.notifyLoop, hg, launchesOf, sendsOf, queriesOf, dispatchOf,
        ih1, ih2, ih3]
    | some user =>
      by_cases hm : (renderPrivateMessage now (env.GetFirstName user.Name) duties).length = 0
      · simp [DutyDailyMessenger.notifyLoop, hg, launchesOf, sendsOf, queriesOf, dispatchOf,
          ih1, ih2, ih3, hm]
      · simp [DutyDailyMessenger.notifyLoop, hg, launchesOf, sendsOf, queriesOf, dispatchOf,
          ih1, ih2, ih3, hm]

theorem notifyUsersOnDuty_launches (env : Env) (this : DutyDailyMessenger) (now : Time)
    (usersOnDuty : List UserOnDuty) :
    launchesOf (this.notifyUsersOnDuty env now usersOnDuty)
      = (env.rangeOrder (JoinDutiesByUserName usersOnDuty)).filterMap
          (dispatchOf env this.usersByName now) ∧
    sendsOf (this.notifyUsersOnDuty env now usersOnDuty) = [] ∧
    queriesOf (this.notifyUsersOnDuty env now usersOnDuty) = [] := by
  obtain ⟨h1, h2, h3⟩ :=
    notifyLoop_launches env this now (env.rangeOrder (JoinDutiesByUserName usersOnDuty))
  simp [DutyDailyMessenger.notifyUsersOnDuty, launchesOf, sendsOf, queriesOf, h1, h2, h3]

theorem goroutine_sends (env : Env) (l : List (String × String)) (i : Nat) :
    sendsOf (goroutineTraces env i l).flatten
      = l.map (fun x => (env.ToSlackUserLogin x.1, x.2)) := by
  induction l generalizing i with
  | nil => rfl
  | cons x xs ih =>
    obtain ⟨name, message⟩ := x
    simp only [goroutineTraces, List.flatten_cons, sendsOf_append, ih, List.map_cons]
    simp only [DutyDailyMessenger.notifyUserOnDuty]
    cases env.SendMessage (SendCall.goroutine i) (env.ToSlackUserLogin name) message <;>
      simp [sendsOf]

theorem initUserByNameMap_Config (this : DutyDailyMessenger) :
    this.initUserByNameMap.Config = this.Config := by
  simp only [DutyDailyMessenger.initUserByNameMap]
  split_ifs <;> rfl

theorem trace_shape (fromT toT : Time) (scheduleID : String)
    (logs1 notified logs2 sent : List Event) (format : String) (args : List LogArg)
    (channel text : String)
    (h1 : ∀ e ∈ logs1, e.isLog = true) (h2 : ∀ e ∈ logs2, e.isLog = true)
    (h3 : ∀ e ∈ sent, e.isLog = true)
    (hn : sendsOf notified = []) (hq : queriesOf notified = []) :
    sendsOf (Event.query fromT toT scheduleID ::
      (logs1 ++ notified ++ logs2 ++ [Event.log format args, Event.send channel text] ++ sent))
      = [(channel, text)] ∧
    launchesOf (Event.query fromT toT scheduleID ::
      (logs1 ++ notified ++ logs2 ++ [Event.log format args, Event.send channel text] ++ sent))
      = launchesOf notified ∧
    queriesOf (Event.query fromT toT scheduleID ::
      (logs1 ++ notified ++ logs2 ++ [Event.log format args, Event.send channel text] ++ sent))
      = [(fromT, toT, scheduleID)] := by
  obtain ⟨a1, a2, a3⟩ := logs_silent logs1 h1
  obtain ⟨b1, b2, b3⟩ := logs_silent logs2 h2
  obtain ⟨c1, c2, c3⟩ := logs_silent sent h3
  refine ⟨?_, ?_, ?_⟩
  · simp [sendsOf, sendsOf_append, a1, b1, c1, hn]
  · simp [launchesOf, launchesOf_append, a2, b2, c2]
  · simp [queriesOf, queriesOf_append, a3, b3, c3, hq]

theorem Run_found_eq (env : Env) (this : DutyDailyMessenger) (now : Time)
    (h1 : (fetchedOf env this now).2 = none) (h2 : (fetchedOf env this now).1 ≠ []) :
    this.Run env now =
      (this.initUserByNameMap,
        Event.query (Date now.Year now.Month now.Day 0 0 0 0 env.Local)
          ((Date now.Year now.Month now.Day 0 0 0 0 env.Local).Add (75 * Hour))
          this.Config.DutyCommand.ScheduleID ::
        ((processUsersOnDuty env now (fetchedOf env this now).1).2 ++
          this.initUserByNameMap.notifyUsersOnDuty env now
            (processUsersOnDuty env now (fetchedOf env this now).1).1.2 ++
          (this.initUserByNameMap.render env now
            (processUsersOnDuty env now (fetchedOf env this now).1).1.1
            (processUsersOnDuty env now (fetchedOf env this now).1).1.2).2 ++
          [Event.log "text: %s\n" [LogArg.str (this.initUserByNameMap.render env now
            (processUsersOnDuty env now (fetchedOf env this now).1).1.1
            (processUsersOnDuty env now (fetchedOf env this now).1).1.2).1],
           Event.send this.initUserByNameMap.Config.Slack.Channel
            (this.initUserByNameMap.render env now
              (processUsersOnDuty env now (fetchedOf env this now).1).1.1
              (processUsersOnDuty env now (fetchedOf env this now).1).1.2).1] ++
          (match env.SendMessage SendCall.broadcast this.initUserByNameMap.Config.Slack.Channel
              (this.initUserByNameMap.render env now
                (processUsersOnDuty env now (fetchedOf env this now).1).1.1
                (processUsersOnDuty env now (fetchedOf env this now).1).1.2).1 with
           | some err => [Event.log "Error send slack message: %s" [LogArg.str err]]
           | none => []))) := by
  have hlen : ((fetchedOf env this now).1.length == 0) = false := by
    cases hf : (fetchedOf env this now).1 with
    | nil => exact absurd hf h2
    | cons x xs => rfl
  unfold DutyDailyMessenger.Run
  simp only [fetchedOf] at h1 hlen ⊢
  simp only [h1, hlen, Bool.false_eq_true, if_false]

/-- The trace of a run that found duties. -/
theorem Run_found (env : Env) (this : DutyDailyMessenger) (now : Time)
    (h1 : (fetchedOf env this now).2 = none) (h2 : (fetchedOf env this now).1 ≠ []) :
    (this.Run env now).1 = this.initUserByNameMap ∧
    sendsOf (this.Run env now).2 =
      [(this.Config.Slack.Channel,
        (this.initUserByNameMap.render env now
          (env.SplitCurrentAndNextUsersOnDuty now
            (env.JoinDuties (fetchedOf env this now).1)).1
          (env.SplitCurrentAndNextUsersOnDuty now
            (env.JoinDuties (fetchedOf env this now).1)).2).1)] ∧
    launchesOf (this.Run env now).2 =
      launchesOf (this.initUserByNameMap.notifyUsersOnDuty env now
        (env.SplitCurrentAndNextUsersOnDuty now
          (env.JoinDuties (fetchedOf env this now).1)).2) ∧
    queriesOf (this.Run env now).2 =
      [(Date now.Year now.Month now.Day 0 0 0 0 env.Local,
        (Date now.Year now.Month now.Day 0 0 0 0 env.Local).Add (75 * Hour),
        this.Config.DutyCommand.ScheduleID)] := by
  rw [Run_found_eq env this now h1 h2]
  obtain ⟨n1, n2, n3⟩ := notifyUsersOnDuty_launches env this.initUserByNameMap now
    (processUsersOnDuty env now (fetchedOf env this now).1).1.2
  have hsent : ∀ e ∈ (match env.SendMessage SendCall.broadcast
        this.initUserByNameMap.Config.Slack.Channel
        (this.initUserByNameMap.render env now
          (processUsersOnDuty env now (fetchedOf env this now).1).1.1
          (processUsersOnDuty env now (fetchedOf env this now).1).1.2).1 with
      | some err => [Event.log "Error send slack message: %s" [LogArg.str err]]
      | none => []), e.isLog = true := by
    intro e he
    cases hs : env.SendMessage SendCall.broadcast this.initUserByNameMap.Config.Slack.Channel
      (this.initUserByNameMap.render env now
        (processUsersOnDuty env now (fetchedOf env this now).1).1.1
        (processUsersOnDuty env now (fetchedOf env this now).1).1.2).1 <;>
      simp_all [Event.isLog]
  have hlogs1 : ∀ e ∈ (processUsersOnDuty env now (fetchedOf env this now).1).2,
      e.isLog = true := by
    intro e he
    simp only [processUsersOnDuty, List.mem_cons, List.mem_singleton, List.not_mem_nil,
      or_false] at he
    rcases he with h | h <;> subst h <;> rfl
  obtain ⟨s1, s2, s3⟩ := trace_shape _ _ _ _ _ _ _ _ _ _ _ hlogs1
    (render_logs env this.initUserByNameMap now _ _) hsent n2 n3
  refine ⟨rfl, ?_, ?_, ?_⟩
  · rw [s1, initUserByNameMap_Config]; rfl
  · rw [s2]; rfl
  · rw [s3]

/-- The trace of a run that found no duties. -/
theorem Run_nothing (env : Env) (this : DutyDailyMessenger) (now : Time)
    (h : (fetchedOf env this now).2 ≠ none ∨ (fetchedOf env this now).1 = []) :
    this.Run env now = (this,
      [Event.query (Date now.Year now.Month now.Day 0 0 0 0 env.Local)
        ((Date now.Year now.Month now.Day 0 0 0 0 env.Local).Add (75 * Hour))
        this.Config.DutyCommand.ScheduleID,
       match (fetchedOf env this now).2 with
       | some err => Event.log "error get users on duty: %s" [LogArg.str err]
       | none => Event.log "no users on duty found" []]) := by
  simp only [fetchedOf] at h ⊢
  simp only [DutyDailyMessenger.Run]
  cases he : (env.GetUsersOnDutyForDate (Date now.Year now.Month now.Day 0 0 0 0 env.Local)
    ((Date now.Year now.Month now.Day 0 0 0 0 env.Local).Add (75 * Hour))
    this.Config.DutyCommand.ScheduleID).2 with
  | some err => rfl
  | none =>
    rw [he] at h
    have hnil := h.resolve_left (fun hh => hh rfl)
    simp [hnil]

theorem Run_queries (env : Env) (this : DutyDailyMessenger) (now : Time) :
    queriesOf (this.Run env now).2 =
      [(Date now.Year now.Month now.Day 0 0 0 0 env.Local,
        (Date now.Year now.Month now.Day 0 0 0 0 env.Local).Add (75 * Hour),
        this.Config.DutyCommand.ScheduleID)] := by
  by_cases h : (fetchedOf env this now).2 ≠ none ∨ (fetchedOf env this now).1 = []
  · rw [Run_nothing env this now h]
    cases (fetchedOf env this now).2 <;> rfl
  · have h1 : (fetchedOf env this now).2 = none := by
      by_contra hc; exact h (Or.inl hc)
    have h2 : (fetchedOf env this now).1 ≠ [] := fun hc => h (Or.inr hc)
    exact (Run_found env this now h1 h2).2.2.2

theorem Run_idle_effects (env : Env) (this : DutyDailyMessenger) (now : Time)
    (h : (fetchedOf env this now).2 ≠ none ∨ (fetchedOf env this now).1 = []) :
    (this.Run env now).1 = this ∧
    (this.Run env now).2 =
      [Event.query (Date now.Year now.Month now.Day 0 0 0 0 env.Local)
        ((Date now.Year now.Month now.Day 0 0 0 0 env.Local).Add (75 * Hour))
        this.Config.DutyCommand.ScheduleID,
       match (fetchedOf env this now).2 with
       | some err => Event.log "error get users on duty: %s" [LogArg.str err]
       | none => Event.log "no users on duty found" []] ∧
    sendsOf (this.Run env now).2 = [] ∧
    launchesOf (this.Run env now).2 = [] ∧
    attemptedSends env (this.Run env now).2 = [] := by
  have hs : sendsOf (this.Run env now).2 = [] := by
    rw [Run_nothing env this now h]
    cases (fetchedOf env this now).2 <;> rfl
  have hl : launchesOf (this.Run env now).2 = [] := by
    rw [Run_nothing env this now h]
    cases (fetchedOf env this now).2 <;> rfl
  refine ⟨?_, ?_, hs, hl, ?_⟩
  · rw [Run_nothing env this now h]
  · rw [Run_nothing env this now h]
  · simp only [attemptedSends, privateSends, hs, hl]
    rfl

/-! ## The claims about `Run` -/

/-- C3: when the provider returns an error, or an empty list without error, `Run`
returns with the messenger unchanged; its trace is the query and one log line, so
no message is sent, no goroutine is launched, and the merge and the split are not
run (their log lines are absent and the run does not depend on them). -/
theorem Run_without_duties (env : Env) (this : DutyDailyMessenger) (now : Time)
    (h : (fetchedOf env this now).2 ≠ none ∨ (fetchedOf env this now).1 = []) :
    (this.Run env now).1 = this ∧
    (this.Run env now).2 =
      [Event.query (Date now.Year now.Month now.Day 0 0 0 0 env.Local)
        ((Date now.Year now.Month now.Day 0 0 0 0 env.Local).Add (75 * Hour))
        this.Config.DutyCommand.ScheduleID,
       match (fetchedOf env this now).2 with
       | some err => Event.log "error get users on duty: %s" [LogArg.str err]
       | none => Event.log "no users on duty found" []] ∧
    sendsOf (this.Run env now).2 = [] ∧
    launchesOf (this.Run env now).2 = [] ∧
    attemptedSends env (this.Run env now).2 = [] ∧
    ∀ (join : List UserOnDuty → List UserOnDuty)
      (split : Time → List UserOnDuty → UserOnDuty × List UserOnDuty),
      this.Run { env with JoinDuties := join, SplitCurrentAndNextUsersOnDuty := split } now
        = this.Run env now := by
  obtain ⟨a1, a2, a3, a4, a5⟩ := Run_idle_effects env this now h
  refine ⟨a1, a2, a3, a4, a5, ?_⟩
  intro join split
  rw [Run_nothing env this now h]
  exact Run_nothing
    { env with JoinDuties := join, SplitCurrentAndNextUsersOnDuty := split } this now h

theorem Run_without_duties_witness :
    ((fetchedOf failingEnv sampleMessenger sampleNow).2 ≠ none ∨
      (fetchedOf failingEnv sampleMessenger sampleNow).1 = []) ∧
    (sampleMessenger.Run failingEnv sampleNow).1 = sampleMessenger ∧
    sendsOf (sampleMessenger.Run failingEnv sampleNow).2 = [] ∧
    launchesOf (sampleMessenger.Run failingEnv sampleNow).2 = [] :=
  ⟨Or.inl (by decide),
    (Run_without_duties failingEnv sampleMessenger sampleNow (Or.inl (by decide))).1,
    (Run_without_duties failingEnv sampleMessenger sampleNow (Or.inl (by decide))).2.2.1,
    (Run_without_duties failingEnv sampleMessenger sampleNow (Or.inl (by decide))).2.2.2.1⟩

/-- C7: when the provider returns a non-empty list without error, the only message that
`Run` itself sends is the broadcast, to `Config.Slack.Channel`, with the text of
`render` at the pair that the split returns for the merged fetched list; the
private notifications are those of `notifyUsersOnDuty` at the `next` list of the
same pair. -/
theorem Run_broadcast (env : Env) (this : DutyDailyMessenger) (now : Time)
    (h1 : (fetchedOf env this now).2 = none) (h2 : (fetchedOf env this now).1 ≠ []) :
    sendsOf (this.Run env now).2 =
      [(this.Config.Slack.Channel,
        (this.initUserByNameMap.render env now
          (env.SplitCurrentAndNextUsersOnDuty now
            (env.JoinDuties (fetchedOf env this now).1)).1
          (env.SplitCurrentAndNextUsersOnDuty now
            (env.JoinDuties (fetchedOf env this now).1)).2).1)] ∧
    launchesOf (this.Run env now).2 =
      launchesOf (this.initUserByNameMap.notifyUsersOnDuty env now
        (env.SplitCurrentAndNextUsersOnDuty now
          (env.JoinDuties (fetchedOf env this now).1)).2) :=
  ⟨(Run_found env this now h1 h2).2.1, (Run_found env this now h1 h2).2.2.1⟩

theorem Run_broadcast_witness :
    (fetchedOf dutyEnv sampleMessenger sampleNow).2 = none ∧
    (fetchedOf dutyEnv sampleMessenger sampleNow).1 ≠ [] ∧
    sendsOf (sampleMessenger.Run dutyEnv sampleNow).2 =
      [(sampleMessenger.Config.Slack.Channel,
        (sampleMessenger.initUserByNameMap.render dutyEnv sampleNow
          (dutyEnv.SplitCurrentAndNextUsersOnDuty sampleNow
            (dutyEnv.JoinDuties (fetchedOf dutyEnv sampleMessenger sampleNow).1)).1
          (dutyEnv.SplitCurrentAndNextUsersOnDuty sampleNow
            (dutyEnv.JoinDuties (fetchedOf dutyEnv sampleMessenger sampleNow).1)).2).1)] :=
  ⟨by decide, List.cons_ne_nil _ _,
    (Run_broadcast dutyEnv sampleMessenger sampleNow (by decide) (List.cons_ne_nil _ _)).1⟩

theorem privateSends_eq (env : Env) (trace : List Event) :
    privateSends env trace
      = (launchesOf trace).map (fun x => (env.ToSlackUserLogin x.1, x.2)) :=
  goroutine_sends env (launchesOf trace) 0

theorem render_congr (env1 env2 : Env) (h : env1.ToSlackUserLogin = env2.ToSlackUserLogin)
    (this : DutyDailyMessenger) (now : Time) (current : UserOnDuty) (next : List UserOnDuty) :
    this.render env1 now current next = this.render env2 now current next := by
  simp only [DutyDailyMessenger.render, DutyDailyMessenger.getUserOnDutySlackLoginByName, h]

theorem dispatchOf_congr (env1 env2 : Env) (h : env1.GetFirstName = env2.GetFirstName)
    (roster : GoMap User) (now : Time) :
    dispatchOf env1 roster now = dispatchOf env2 roster now := by
  funext e
  simp only [dispatchOf, h]

/-- The launches and the sends of any run, whatever the provider returns. -/
theorem Run_effects (env : Env) (this : DutyDailyMessenger) (now : Time) :
    launchesOf (this.Run env now).2 =
      (if (fetchedOf env this now).2 = none ∧ (fetchedOf env this now).1.isEmpty = false then
        (env.rangeOrder (JoinDutiesByUserName
          (env.SplitCurrentAndNextUsersOnDuty now
            (env.JoinDuties (fetchedOf env this now).1)).2)).filterMap
          (dispatchOf env this.initUserByNameMap.usersByName now)
       else []) ∧
    sendsOf (this.Run env now).2 =
      (if (fetchedOf env this now).2 = none ∧ (fetchedOf env this now).1.isEmpty = false then
        [(this.Config.Slack.Channel,
          (this.initUserByNameMap.render env now
            (env.SplitCurrentAndNextUsersOnDuty now
              (env.JoinDuties (fetchedOf env this now).1)).1
            (env.SplitCurrentAndNextUsersOnDuty now
              (env.JoinDuties (fetchedOf env this now).1)).2).1)]
       else []) := by
  by_cases h : (fetchedOf env this now).2 = none ∧ (fetchedOf env this now).1.isEmpty = false
  · have h2 : (fetchedOf env this now).1 ≠ [] := by
      intro hc
      rw [hc] at h
      exact absurd h.2 (by decide)
    obtain ⟨_, f2, f3, _⟩ := Run_found env this now h.1 h2
    rw [if_pos h, if_pos h, f2, f3]
    exact ⟨(notifyUsersOnDuty_launches env this.initUserByNameMap now _).1, rfl⟩
  · have h0 : (fetchedOf env this now).2 ≠ none ∨ (fetchedOf env this now).1 = [] := by
      by_contra hc
      push_neg at hc
      refine h ⟨hc.1, ?_⟩
      cases hf : (fetchedOf env this now).1 with
      | nil => exact absurd hf hc.2
      | cons x xs => rfl
    obtain ⟨_, _, g1, g2, _⟩ := Run_idle_effects env this now h0
    rw [if_neg h, if_neg h]
    exact ⟨g2, g1⟩

/-- C4: whatever the provider returns and whichever `SendMessage` calls fail, `Run`
attempts the same sends: the goroutines launched, the broadcast, and the
(destination, text) of every call are the same for any two assignments of errors
to the calls, and every launched goroutine makes its call. -/
theorem Run_sends_regardless_of_failures (env : Env) (this : DutyDailyMessenger) (now : Time)
    (send1 send2 : SendCall → String → String → Option String) :
    attemptedSends { env with SendMessage := send1 }
        (this.Run { env with SendMessage := send1 } now).2
      = attemptedSends { env with SendMessage := send2 }
        (this.Run { env with SendMessage := send2 } now).2 ∧
    launchesOf (this.Run { env with SendMessage := send1 } now).2
      = launchesOf (this.Run { env with SendMessage := send2 } now).2 ∧
    sendsOf (this.Run { env with SendMessage := send1 } now).2
      = sendsOf (this.Run { env with SendMessage := send2 } now).2 ∧
    attemptedSends { env with SendMessage := send1 }
        (this.Run { env with SendMessage := send1 } now).2
      = (launchesOf (this.Run { env with SendMessage := send1 } now).2).map
          (fun x => (env.ToSlackUserLogin x.1, x.2)) ++
        sendsOf (this.Run { env with SendMessage := send1 } now).2 := by
  obtain ⟨l1, s1⟩ := Run_effects { env with SendMessage := send1 } this now
  obtain ⟨l2, s2⟩ := Run_effects { env with SendMessage := send2 } this now
  have hr : ∀ c n, this.initUserByNameMap.render { env with SendMessage := send1 } now c n
      = this.initUserByNameMap.render { env with SendMessage := send2 } now c n :=
    fun c n => render_congr _ _ rfl _ _ _ _
  have hd : dispatchOf { env with SendMessage := send1 } this.initUserByNameMap.usersByName now
      = dispatchOf { env with SendMessage := send2 } this.initUserByNameMap.usersByName now :=
    dispatchOf_congr _ _ rfl _ _
  have hl : launchesOf (this.Run { env with SendMessage := send1 } now).2
      = launchesOf (this.Run { env with SendMessage := send2 } now).2 := by
    rw [l1, l2, hd]; rfl
  have hs : sendsOf (this.Run { env with SendMessage := send1 } now).2
      = sendsOf (this.Run { env with SendMessage := send2 } now).2 := by
    rw [s1, s2]
    simp only [hr]
    rfl
  refine ⟨?_, hl, hs, ?_⟩
  · simp only [attemptedSends, privateSends_eq, hl, hs]
  · simp only [attemptedSends, privateSends_eq]

/-! ## The order of the private notifications -/

/-- Counterexample to C5: on the same roster and the same upcoming duties, a `range`
that visits the map one way launches Alice's notification before Bob's, and a
`range` that visits it the other way launches Bob's before Alice's; both visit
every entry once. -/
theorem notify_order_counterexample :
    (sampleEnv [] (fun m => m)).RangeOrderValid ∧
    (sampleEnv [] List.reverse).RangeOrderValid ∧
    (launchesOf (readyMessenger.notifyUsersOnDuty (sampleEnv [] (fun m => m)) sampleNow
      [dutyAlice, dutyBob])).map Prod.fst = ["alice", "bob"] ∧
    (launchesOf (readyMessenger.notifyUsersOnDuty (sampleEnv [] List.reverse) sampleNow
      [dutyAlice, dutyBob])).map Prod.fst = ["bob", "alice"] ∧
    launchesOf (readyMessenger.notifyUsersOnDuty (sampleEnv [] (fun m => m)) sampleNow
      [dutyAlice, dutyBob]) ≠
    launchesOf (readyMessenger.notifyUsersOnDuty (sampleEnv [] List.reverse) sampleNow
      [dutyAlice, dutyBob]) := by
  refine ⟨fun m => List.Perm.refl m, fun m => List.reverse_perm m, by decide, by decide,
    by decide⟩

/-- C5, amended: `notifyUsersOnDuty` launches the notifications in the order in which
`range` visits the map of user names, one pass per entry; that order is not fixed,
and for any two orders the notifications launched are the same up to their
order. -/
theorem notify_launches_perm (env : Env) (this : DutyDailyMessenger) (now : Time)
    (usersOnDuty : List UserOnDuty)
    (order1 order2 : GoMap (List UserOnDuty) → List (String × List UserOnDuty))
    (h1 : ∀ m, (order1 m).Perm m) (h2 : ∀ m, (order2 m).Perm m) :
    launchesOf (this.notifyUsersOnDuty { env with rangeOrder := order1 } now usersOnDuty)
      = (order1 (JoinDutiesByUserName usersOnDuty)).filterMap
          (dispatchOf env this.usersByName now) ∧
    (launchesOf (this.notifyUsersOnDuty { env with rangeOrder := order1 } now usersOnDuty)).Perm
      (launchesOf (this.notifyUsersOnDuty { env with rangeOrder := order2 } now usersOnDuty)) := by
  have e1 := (notifyUsersOnDuty_launches { env with rangeOrder := order1 } this now
    usersOnDuty).1
  have e2 := (notifyUsersOnDuty_launches { env with rangeOrder := order2 } this now
    usersOnDuty).1
  have d1 : dispatchOf { env with rangeOrder := order1 } this.usersByName now
      = dispatchOf env this.usersByName now := dispatchOf_congr _ _ rfl _ _
  have d2 : dispatchOf { env with rangeOrder := order2 } this.usersByName now
      = dispatchOf env this.usersByName now := dispatchOf_congr _ _ rfl _ _
  rw [d1] at e1
  rw [d2] at e2
  refine ⟨e1, ?_⟩
  rw [e1, e2]
  exact List.Perm.filterMap _
    ((h1 (JoinDutiesByUserName usersOnDuty)).trans (h2 (JoinDutiesByUserName usersOnDuty)).symm)

theorem notify_launches_perm_witness :
    (∀ m : GoMap (List UserOnDuty), (m : List (String × List UserOnDuty)).Perm m) ∧
    (∀ m : GoMap (List UserOnDuty), m.reverse.Perm m) ∧
    (launchesOf (readyMessenger.notifyUsersOnDuty
        { dutyEnv with rangeOrder := fun m => m } sampleNow [dutyAlice, dutyBob])).Perm
      (launchesOf (readyMessenger.notifyUsersOnDuty
        { dutyEnv with rangeOrder := List.reverse } sampleNow [dutyAlice, dutyBob])) :=
  ⟨fun m => List.Perm.refl m, fun m => List.reverse_perm m,
    (notify_launches_perm dutyEnv readyMessenger sampleNow [dutyAlice, dutyBob]
      (fun m => m) List.reverse (fun m => List.Perm.refl m) (fun m => List.reverse_perm m)).2⟩

/-! ## The window of the provider query -/

theorem dayStart_facts (now : Time) (loc : Location) :
    (Date now.Year now.Month now.Day 0 0 0 0 loc).unixSec
      = now.wallSec / 86400 * 86400 - loc.dateOffset (now.wallSec / 86400 * 86400) ∧
    (Date now.Year now.Month now.Day 0 0 0 0 loc).unixNano % 1000000000 = 0 ∧
    (Date now.Year now.Month now.Day 0 0 0 0 loc).unixNano
      ≤ now.unixNano + ((now.loc.lookup now.unixSec).offset
          - loc.dateOffset (now.wallSec / 86400 * 86400)) * 1000000000 := by
  rw [Date_of_now]
  generalize loc.dateOffset (now.wallSec / 86400 * 86400) = o
  simp only [Time.wallSec, Time.unixSec]
  refine ⟨by omega, by omega, by omega⟩

theorem same_day (t1 t2 : Time) (h : t1.wallSec / 86400 = t2.wallSec / 86400) :
    t1.Year = t2.Year ∧ t1.Month = t2.Month ∧ t1.Day = t2.Day := by
  simp only [Time.Year, Time.Month, Time.Day, Time.date, h, and_self]

theorem dateOffset_FixedZone (offset unix : Int) :
    (FixedZone offset).dateOffset unix = offset := by
  simp only [Location.dateOffset, FixedZone, alpha, omega]
  split_ifs <;> omega

/-- Counterexample to C6. With the local zone five hours west of UTC and `now` =
2024-01-02 01:00 UTC carried in UTC, `Run` asks for the window from 2024-01-02
00:00 local time (05:00 UTC), and the end of the window is later than `now` plus
75 hours. With Sao Paulo as the local zone and `now` = 2018-11-04 12:00 local
time, a day whose local midnight was skipped, the window starts at 23:00 of 3
November local time, not at 00:00:00 of the date of `now`. -/
theorem Run_window_counterexample :
    (queriesOf (sampleMessenger.Run westEnv sampleNow).2).map
        (fun q => (q.1.unixNano, q.2.1.unixNano, q.2.2))
      = [(1704171600000000000, 1704441600000000000, "S1")] ∧
    ¬ ((1704441600000000000 : Int) ≤ sampleNow.unixNano + 75 * Hour) ∧
    (saoPauloNoon.Year, saoPauloNoon.Month, saoPauloNoon.Day) = (2018, 11, 4) ∧
    (queriesOf (sampleMessenger.Run saoPauloEnv saoPauloNoon).2).map
        (fun q => (q.1.unixNano, q.1.Year, q.1.Month, q.1.Day, q.1.hourOfDay, q.1.Minute))
      = [(1541296800000000000, 2018, 11, 3, 23, 0)] := by
  decide

/-- C6, amended: `Run` makes one provider query, with the schedule
`Config.DutyCommand.ScheduleID`, `from` = `time.Date` of the year, month and day
of `now` at 00:00:00 in the local zone, and `to` = `from` plus 75 hours exactly.
`from` is midnight of the calendar date of `now`, read with the offset `o` that
`time.Date` selects in the local zone; it shows 00:00:00 of that date in the
local zone when `o` is the offset in force at `from`. The end of the window is at
most `now` plus 75 hours plus the amount by which the offset of `now` exceeds
`o`, hence at most `now` plus 75 hours when the offset of `now` does not exceed
`o`; in a zone of one fixed offset `o` is that offset. -/
theorem Run_query_window (env : Env) (this : DutyDailyMessenger) (now : Time) :
    queriesOf (this.Run env now).2 =
      [(Date now.Year now.Month now.Day 0 0 0 0 env.Local,
        (Date now.Year now.Month now.Day 0 0 0 0 env.Local).Add (75 * Hour),
        this.Config.DutyCommand.ScheduleID)] ∧
    (Date now.Year now.Month now.Day 0 0 0 0 env.Local).loc = env.Local ∧
    (Date now.Year now.Month now.Day 0 0 0 0 env.Local).unixNano
      = (now.wallSec / 86400 * 86400
          - env.Local.dateOffset (now.wallSec / 86400 * 86400)) * 1000000000 ∧
    ((env.Local.lookup (Date now.Year now.Month now.Day 0 0 0 0 env.Local).unixSec).offset
        = env.Local.dateOffset (now.wallSec / 86400 * 86400) →
      (Date now.Year now.Month now.Day 0 0 0 0 env.Local).Year = now.Year ∧
      (Date now.Year now.Month now.Day 0 0 0 0 env.Local).Month = now.Month ∧
      (Date now.Year now.Month now.Day 0 0 0 0 env.Local).Day = now.Day ∧
      (Date now.Year now.Month now.Day 0 0 0 0 env.Local).wallSec % 86400 = 0) ∧
    (Date now.Year now.Month now.Day 0 0 0 0 env.Local).unixNano % 1000000000 = 0 ∧
    ((Date now.Year now.Month now.Day 0 0 0 0 env.Local).Add (75 * Hour)).unixNano
      = (Date now.Year now.Month now.Day 0 0 0 0 env.Local).unixNano
        + 75 * 3600 * 1000000000 ∧
    ((Date now.Year now.Month now.Day 0 0 0 0 env.Local).Add (75 * Hour)).unixNano
      ≤ now.unixNano + 75 * Hour + ((now.loc.lookup now.unixSec).offset
          - env.Local.dateOffset (now.wallSec / 86400 * 86400)) * 1000000000 ∧
    ((now.loc.lookup now.unixSec).offset
        ≤ env.Local.dateOffset (now.wallSec / 86400 * 86400) →
      ((Date now.Year now.Month now.Day 0 0 0 0 env.Local).Add (75 * Hour)).unixNano
        ≤ now.unixNano + 75 * Hour) ∧
    (∀ offset unix : Int, (FixedZone offset).dateOffset unix = offset) := by
  obtain ⟨u, n, b⟩ := dayStart_facts now env.Local
  refine ⟨Run_queries env this now, ?_, ?_, ?_, n, ?_, ?_, ?_, dateOffset_FixedZone⟩
  · rw [Date_of_now]
  · rw [Date_of_now]
  · intro ho
    have hloc : (Date now.Year now.Month now.Day 0 0 0 0 env.Local).loc = env.Local := by
      rw [Date_of_now]
    have w : (Date now.Year now.Month now.Day 0 0 0 0 env.Local).wallSec
        = now.wallSec / 86400 * 86400 := by
      rw [Time.wallSec, hloc, ho, u]; omega
    have hday : (Date now.Year now.Month now.Day 0 0 0 0 env.Local).wallSec / 86400
        = now.wallSec / 86400 := by
      rw [w]; omega
    obtain ⟨dy, dm, dd⟩ := same_day _ _ hday
    exact ⟨dy, dm, dd, by rw [w]; omega⟩
  · simp only [Time.Add, Hour]; omega
  · simp only [Time.Add, Hour] at b ⊢
    omega
  · intro h
    simp only [Time.Add, Hour] at b ⊢
    omega

theorem Run_query_window_witness :
    (dutyEnv.Local.lookup
        (Date sampleNow.Year sampleNow.Month sampleNow.Day 0 0 0 0 dutyEnv.Local).unixSec).offset
      = dutyEnv.Local.dateOffset (sampleNow.wallSec / 86400 * 86400) ∧
    (sampleNow.loc.lookup sampleNow.unixSec).offset
      ≤ dutyEnv.Local.dateOffset (sampleNow.wallSec / 86400 * 86400) ∧
    (Date sampleNow.Year sampleNow.Month sampleNow.Day 0 0 0 0 dutyEnv.Local).Day
      = sampleNow.Day ∧
    ((Date sampleNow.Year sampleNow.Month sampleNow.Day 0 0 0 0 dutyEnv.Local).Add
        (75 * Hour)).unixNano
      ≤ sampleNow.unixNano + 75 * Hour :=
  ⟨by decide, by decide,
    ((Run_query_window dutyEnv sampleMessenger sampleNow).2.2.2.1 (by decide)).2.2.1,
    (Run_query_window dutyEnv sampleMessenger sampleNow).2.2.2.2.2.2.2.1 (by decide)⟩

/-! ## Who receives a private reminder -/

theorem JoinDutiesByUserName_entry (periods : List UserOnDuty)
    (e : String × List UserOnDuty) (he : e ∈ JoinDutiesByUserName periods) :
    e.2 = periods.filter (fun p => p.Name == e.1) ∧ (∃ p ∈ periods, p.Name = e.1) ∧
      e.2 ≠ [] := by
  simp only [JoinDutiesByUserName, List.mem_map, List.mem_dedup] at he
  obtain ⟨name, ⟨p, hp, hpn⟩, rfl⟩ := he
  refine ⟨rfl, ⟨p, hp, hpn⟩, ?_⟩
  intro hnil
  have := (List.filter_eq_nil_iff.mp hnil) p hp
  simp [hpn] at this

theorem JoinDutiesByUserName_keys (periods : List UserOnDuty) :
    (JoinDutiesByUserName periods).map Prod.fst = (periods.map (fun p => p.Name)).dedup := by
  simp only [JoinDutiesByUserName, List.map_map]
  exact List.map_id _

theorem visitedNames_spec (env : Env) (hvalid : env.RangeOrderValid)
    (periods : List UserOnDuty) :
    (visitedNames env periods).Nodup ∧
    ∀ name, name ∈ visitedNames env periods ↔ ∃ p ∈ periods, p.Name = name := by
  have hp : (visitedNames env periods).Perm ((periods.map (fun p => p.Name)).dedup) := by
    rw [← JoinDutiesByUserName_keys]
    exact (hvalid (JoinDutiesByUserName periods)).map Prod.fst
  refine ⟨hp.nodup_iff.mpr (List.nodup_dedup _), ?_⟩
  intro name
  rw [hp.mem_iff, List.mem_dedup, List.mem_map]

theorem dispatch_eq_reminder (env : Env) (hvalid : env.RangeOrderValid)
    (roster : GoMap User) (now : Time) (periods : List UserOnDuty)
    (e : String × List UserOnDuty) (he : e ∈ env.rangeOrder (JoinDutiesByUserName periods)) :
    (dispatchOf env roster now e).map (fun x => (env.ToSlackUserLogin x.1, x.2))
      = reminderFor env roster now periods e.1 := by
  obtain ⟨h2, _, hne⟩ := JoinDutiesByUserName_entry periods e
    ((hvalid (JoinDutiesByUserName periods)).mem_iff.mp he)
  simp only [dispatchOf, reminderFor]
  cases hg : roster.get? e.1 with
  | none => rfl
  | some user =>
    have hm := renderPrivateMessage_ne_empty now (env.GetFirstName user.Name) e.2 hne
    simp only [beq_iff_eq, hm, if_false, Option.map_some', ← h2]

/-- C8: when `Run` found duties, the private reminders are exactly one per user name
that `range` visits and that is a key of the roster, in visiting order; the names
visited are, each once, the names with at least one period in the `next` list of
the split. Each reminder goes to `ToSlackUserLogin` of the roster entry's
`SlackLogin` and is built from the periods of that name in `next` alone, so the
current period takes no part and a name missing from the roster is passed
over. -/
theorem Run_private_reminders (env : Env) (this : DutyDailyMessenger) (now : Time)
    (hvalid : env.RangeOrderValid)
    (h1 : (fetchedOf env this now).2 = none) (h2 : (fetchedOf env this now).1 ≠ []) :
    (visitedNames env (nextOf env this now)).Nodup ∧
    (∀ name, name ∈ visitedNames env (nextOf env this now) ↔
      ∃ p ∈ nextOf env this now, p.Name = name) ∧
    privateSends env (this.Run env now).2 =
      (visitedNames env (nextOf env this now)).filterMap
        (reminderFor env this.initUserByNameMap.usersByName now (nextOf env this now)) ∧
    (∀ name, reminderFor env this.initUserByNameMap.usersByName now (nextOf env this now) name =
      (this.initUserByNameMap.usersByName.get? name).map (fun user =>
        (env.ToSlackUserLogin user.SlackLogin,
          renderPrivateMessage now (env.GetFirstName user.Name)
            ((nextOf env this now).filter (fun p => p.Name == name))))) ∧
    (privateSends env (this.Run env now).2).length =
      ((visitedNames env (nextOf env this now)).filter
        (fun name => (this.initUserByNameMap.usersByName.get? name).isSome)).length := by
  obtain ⟨hnd, hmem⟩ := visitedNames_spec env hvalid (nextOf env this now)
  have hsends : privateSends env (this.Run env now).2 =
      (visitedNames env (nextOf env this now)).filterMap
        (reminderFor env this.initUserByNameMap.usersByName now (nextOf env this now)) := by
    rw [privateSends_eq, (Run_found env this now h1 h2).2.2.1,
      (notifyUsersOnDuty_launches env this.initUserByNameMap now _).1, List.map_filterMap,
      visitedNames, List.filterMap_map]
    exact List.filterMap_congr (fun e he =>
      dispatch_eq_reminder env hvalid this.initUserByNameMap.usersByName now _ e he)
  refine ⟨hnd, hmem, hsends, fun _ => rfl, ?_⟩
  rw [hsends]
  generalize visitedNames env (nextOf env this now) = names
  induction names with
  | nil => rfl
  | cons n ns ih =>
    cases hg : this.initUserByNameMap.usersByName.get? n with
    | none => simp [List.filterMap_cons, List.filter_cons, reminderFor, hg, ih]
    | some user => simp [List.filterMap_cons, List.filter_cons, reminderFor, hg, ih]

theorem Run_private_reminders_witness :
    dutyEnv.RangeOrderValid ∧
    (fetchedOf dutyEnv sampleMessenger sampleNow).2 = none ∧
    (fetchedOf dutyEnv sampleMessenger sampleNow).1 ≠ [] ∧
    privateSends dutyEnv (sampleMessenger.Run dutyEnv sampleNow).2 =
      (visitedNames dutyEnv (nextOf dutyEnv sampleMessenger sampleNow)).filterMap
        (reminderFor dutyEnv sampleMessenger.initUserByNameMap.usersByName sampleNow
          (nextOf dutyEnv sampleMessenger sampleNow)) :=
  ⟨fun m => List.Perm.refl m, by decide, List.cons_ne_nil _ _,
    (Run_private_reminders dutyEnv sampleMessenger sampleNow (fun m => List.Perm.refl m)
      (by decide) (List.cons_ne_nil _ _)).2.2.1⟩

end Bobby
